import Mathlib

/-!
Verification of the `mandel_julia` viewer (`src/bin/mandel_julia/main.rs`).

Two parts are embedded:

1. The per-frame histogram-equalization pipeline (lines 363-386 of
   `main.rs`): the iteration buffer is filtered (only escaped samples are
   recorded), the 9 octiles (0/8 .. 8/8 quantiles) are read off the
   histogram, and a "degeneracy nudge" pass rewrites duplicates.
   The histogram is the `hdrhistogram` crate's `Histogram::<u32>::new(3)`;
   it is embedded as the multiset (list) of recorded values at unit
   resolution, which is exact for recorded values below 2048 (a histogram
   with 3 significant decimal digits distinguishes every value up to
   2047; the viewer's iteration counts are capped at 1024).

2. The `DrawParams` viewport state and its transform operations
   (`reset`, `scroll`, `pan`, `zoom_in`, `zoom_out`) plus the GUI handlers
   that mutate it.  The `f64` fields are embedded as exact rationals.
-/

namespace MandelJulia

/-- Number of recorded values `≤ v` in the histogram, embedded as the
cumulative count of the recorded multiset `s` up to `v`. -/
def countLE (s : List Nat) (v : Nat) : Nat :=
  (s.filter (fun x => decide (x ≤ v))).length

/-- `Histogram::max()` of the `hdrhistogram` crate: the largest recorded
value, `0` when nothing was recorded. -/
def histMax (s : List Nat) : Nat :=
  s.foldr max 0

/-- `Histogram::next_non_equivalent(v)` of the `hdrhistogram` crate:
the lowest value not equivalent to `v` at the histogram's resolution.
At unit resolution (values below 2048 with 3 significant digits) this is
`v + 1`.  Note it is a resolution query, not a "next recorded value"
query: the result need not be a recorded value. -/
def nextNonEquivalent (v : Nat) : Nat :=
  v + 1

/-- The count rank targeted by `value_at_quantile(i/8)` over `n` recorded
samples: `max(1, ceil((i/8)·n))` (the crate rounds the fractional count up
and clamps it to at least one). -/
def quantileTarget (n i : Nat) : Nat :=
  max 1 ((i * n + 7) / 8)

/-- `Histogram::value_at_quantile(i/8)`: the smallest recorded value `v`
whose cumulative count reaches the target rank; `0` when the histogram is
empty (the crate's scan falls through and returns 0). -/
def valueAtQuantile (s : List Nat) (i : Nat) : Nat :=
  match (s.filter (fun v => decide (quantileTarget s.length i ≤ countLE s v))).min? with
  | some v => v
  | none => 0

/-- `main.rs` lines 369-372: the 9 octiles
`(0..=8).map(|i| hist.value_at_quantile(i as f64 / 8.0))`. -/
def octiles (s : List Nat) : List Nat :=
  (List.range 9).map (valueAtQuantile s)

/-- One-at-a-time tail of the nudge loop of `main.rs` lines 375-381,
threading the already-nudged previous octile `prev` and the number `k` of
remaining loop iterations (the source loop is `for i in 0..7`, so `k`
starts at 7 and the last octile is never rewritten):
`octiles[i+1] = max(octiles[i], octiles[i+1]);
 if octiles[i] == octiles[i+1] {
   octiles[i+1] = hist.next_non_equivalent(octiles[i+1]).min(max) }`. -/
def nudgeAux (maxV : Nat) : Nat → Nat → List Nat → List Nat
  | _, _, [] => []
  | _, 0, l => l
  | prev, k + 1, t :: rest =>
    let t1 := max prev t
    let t2 := if t1 = prev then min (nextNonEquivalent t1) maxV else t1
    t2 :: nudgeAux maxV t2 k rest

/-- The degeneracy-nudge loop of `main.rs` lines 374-381 applied to the
octile list (`maxV` is `hist.max()`). -/
def nudge (maxV : Nat) (l : List Nat) : List Nat :=
  match l with
  | [] => []
  | t0 :: rest => t0 :: nudgeAux maxV t0 7 rest

/-- The full quantile-plus-nudge computation of one frame: record the
multiset `s` of escaped iteration counts, compute the 9 octiles, run the
nudge. -/
def thresholds (s : List Nat) : List Nat :=
  nudge (histMax s) (octiles s)

/-- Histogram population of `main.rs` lines 363-367: the per-pixel buffer
(flattened to a list of `(iterationCount, escapeFlag)` pairs) is filtered
by `|b| b.1 != 1` — a sample is recorded exactly when its escape flag
differs from 1 (flag 1 marks a pixel that never escaped) — and the
iteration count of each surviving sample is recorded. -/
def populate (buf : List (Nat × Nat)) : List Nat :=
  (buf.filter (fun b => decide (b.2 ≠ 1))).map Prod.fst

/-- `main.rs` lines 385-386: the first group of four thresholds,
`octiles[0..4]`, as stored into `draw_params.ranges`. -/
def rangesOf (s : List Nat) : List Nat :=
  (thresholds s).take 4

/-- `main.rs` lines 385-386: the second group of four thresholds,
`octiles[4..8]`, as stored into `draw_params.ranges_2` (the ninth octile
is dropped by the split). -/
def rangesTwoOf (s : List Nat) : List Nat :=
  ((thresholds s).drop 4).take 4

/-- The claim-side reading of the nudge ("the smallest recorded value
strictly greater than the duplicate, or the overall maximum recorded
value if none exists"), for comparison with `nextNonEquivalent`: the
smallest element of `s` strictly above `v`, defaulting to `histMax s`. -/
def nextRecordedAbove (s : List Nat) (v : Nat) : Nat :=
  match (s.filter (fun x => decide (v < x))).min? with
  | some w => w
  | none => histMax s

/-- The nudge loop as the claim describes it: duplicates are replaced by
`nextRecordedAbove` (clamped to the maximum) instead of the histogram's
`next_non_equivalent`.  Identical to `nudgeAux` otherwise. -/
def claimNudgeAux (s : List Nat) (maxV : Nat) : Nat → Nat → List Nat → List Nat
  | _, _, [] => []
  | _, 0, l => l
  | prev, k + 1, t :: rest =>
    let t1 := max prev t
    let t2 := if t1 = prev then min (nextRecordedAbove s t1) maxV else t1
    t2 :: claimNudgeAux s maxV t2 k rest

/-- The full per-frame computation as the claim describes it (octiles,
then the claim-side nudge). -/
def claimThresholds (s : List Nat) : List Nat :=
  match octiles s with
  | [] => []
  | t0 :: rest => t0 :: claimNudgeAux s (histMax s) t0 7 rest

end MandelJulia

namespace MandelJulia

/-- The Julia-function selector.  Its enum lives in the library crate
(`rust_fractal_lab::args`), whose source is not under `src/`.
Modelled from the spec: the selector is a closed tagged variant; one
variant (snowflakes) uses a much lower iteration cap, and the spec names
cloud-function and snowflake-function specially for colorizer dispatch,
with every remaining variant behaving alike; `subroutine_name` prefixes
the variant name with `F`. -/
inductive JuliaFunction where
  | snowflakes
  | cloud
  | other
deriving DecidableEq

/-- `JuliaFunction::subroutine_name`.  Modelled from the spec: the
shader subroutine selector string derived from the variant name. -/
def JuliaFunction.subroutine_name : JuliaFunction → String
  | .snowflakes => "FSnowflakes"
  | .cloud => "FCloud"
  | .other => "FOther"

/-- The color-scheme selector.  Its enum lives in the library crate
(`rust_fractal_lab::args`), whose source is not under `src/`.
Modelled from the spec: an enumerated selection whose identity is
irrelevant to the viewport and histogram logic; `subroutine_name`
prefixes the variant name with `ColorMap`. -/
inductive ColorScheme where
  | turbo
  | otherScheme
deriving DecidableEq

/-- `ColorScheme::subroutine_name`.  Modelled from the spec: the shader
subroutine selector string derived from the variant name. -/
def ColorScheme.subroutine_name : ColorScheme → String
  | .turbo => "ColorMapTurbo"
  | .otherScheme => "ColorMapOther"

/-- The parsed command-line arguments (`MandelJuliaArgs` in `main.rs`). -/
structure MandelJuliaArgs where
  is_mandelbrot : Bool
  julia_function : JuliaFunction
  color_scheme : ColorScheme
deriving DecidableEq

/-- The `DrawParams` struct of `main.rs` (lines 65-80).  The four `f64`
bounds, and the `f32` pixel dimensions, are embedded as exact rationals. -/
@[ext]
structure DrawParams where
  x_min : ℚ
  x_max : ℚ
  y_min : ℚ
  y_max : ℚ
  width : ℚ
  height : ℚ
  max_iterations : Nat
  ranges : List Nat
  ranges_2 : List Nat
  color_map : String
  f : String
  is_mandelbrot : Bool
deriving DecidableEq

namespace DrawParams

/-- `DrawParams::reset` (lines 103-126): set the canonical bounds for the
given mode, leaving every other field unchanged. -/
def reset (p : DrawParams) (is_mandelbrot : Bool) : DrawParams :=
  { p with
    x_min := -2
    x_max := if is_mandelbrot then 1 else 2
    y_min := if is_mandelbrot then -1 else -2
    y_max := if is_mandelbrot then 1 else 2 }

/-- `DrawParams::new` (lines 83-101): populate the selector fields from
the parsed arguments, then `reset`. -/
def new (dims : ℚ × ℚ) (args : MandelJuliaArgs) : DrawParams :=
  let ret : DrawParams :=
    { x_min := 0
      x_max := 0
      y_min := 0
      y_max := 0
      width := dims.1
      height := dims.2
      max_iterations :=
        match args.julia_function with
        | .snowflakes => 27
        | _ => 1024
      ranges := [0, 0, 0, 0]
      ranges_2 := [0, 0, 0, 0]
      f := args.julia_function.subroutine_name
      color_map := args.color_scheme.subroutine_name
      is_mandelbrot := args.is_mandelbrot }
  ret.reset args.is_mandelbrot

/-- `DrawParams::scroll` (lines 128-135). -/
def scroll (p : DrawParams) (x y : ℚ) : DrawParams :=
  let s_x := (p.x_max - p.x_min) / 10
  let s_y := (p.y_max - p.y_min) / 10
  { p with
    x_min := p.x_min + x * s_x
    x_max := p.x_max + x * s_x
    y_min := p.y_min + y * s_y
    y_max := p.y_max + y * s_y }

/-- `DrawParams::pan` (lines 137-139): `self.scroll(x / 100.0, y / 100.0)`. -/
def pan (p : DrawParams) (x y : ℚ) : DrawParams :=
  p.scroll (x / 100) (y / 100)

/-- `DrawParams::zoom_in` (lines 141-148). -/
def zoom_in (p : DrawParams) : DrawParams :=
  let s_x := (p.x_max - p.x_min) / 10
  let s_y := (p.y_max - p.y_min) / 10
  { p with
    x_min := p.x_min + s_x
    x_max := p.x_max - s_x
    y_min := p.y_min + s_y
    y_max := p.y_max - s_y }

/-- `DrawParams::zoom_out` (lines 150-157). -/
def zoom_out (p : DrawParams) : DrawParams :=
  let s_x := (p.x_max - p.x_min) / 10
  let s_y := (p.y_max - p.y_min) / 10
  { p with
    x_min := p.x_min - s_x
    x_max := p.x_max + s_x
    y_min := p.y_min - s_y
    y_max := p.y_max + s_y }

end DrawParams

/-- Horizontal span of the viewport. -/
def spanX (p : DrawParams) : ℚ := p.x_max - p.x_min

/-- Vertical span of the viewport. -/
def spanY (p : DrawParams) : ℚ := p.y_max - p.y_min

/-- The bounds invariant of the spec's data model: `xMax > xMin` and
`yMax > yMin`. -/
def boundsInv (p : DrawParams) : Prop :=
  p.x_min < p.x_max ∧ p.y_min < p.y_max

instance : DecidablePred boundsInv := fun q =>
  inferInstanceAs (Decidable (q.x_min < q.x_max ∧ q.y_min < q.y_max))

/-- The "Mandelbrot mode" checkbox handler of `main.rs` lines 448-455:
the checkbox writes the new mode into `draw_params.is_mandelbrot`, and
when it changed the handler calls `draw_params.reset(is_mandelbrot)`.
Nothing else — in particular `max_iterations` — is touched. -/
def handleModeChange (p : DrawParams) (newMode : Bool) : DrawParams :=
  DrawParams.reset { p with is_mandelbrot := newMode } newMode

/-- The "Julia function" combo handler of `main.rs` lines 457-475: on a
change, `draw_params.f` becomes `format!("F{}", variant)` and
`max_iterations` becomes 27 when the new `f` is `"FSnowflakes"`, else
1024. -/
def handleFuncChange (p : DrawParams) (variant : String) : DrawParams :=
  let fNew := "F" ++ variant
  { p with
    f := fNew
    max_iterations := if fNew = "FSnowflakes" then 27 else 1024 }

/-- A concrete mid-session viewport state used to instantiate the
universal theorems: Mandelbrot canonical bounds, the snowflake function
selected, and an iteration cap of 500 set via the iterations slider. -/
def sampleParams : DrawParams :=
  { x_min := -2
    x_max := 1
    y_min := -1
    y_max := 1
    width := 1024
    height := 768
    max_iterations := 500
    ranges := [0, 0, 0, 0]
    ranges_2 := [0, 0, 0, 0]
    color_map := "ColorMapTurbo"
    f := "FSnowflakes"
    is_mandelbrot := true }

end MandelJulia

namespace MandelJulia

example : thresholds [1, 1, 50] = [1, 2, 3, 4, 5, 6, 50, 50, 50] := by decide

example : claimThresholds [1, 1, 50] = [1, 50, 50, 50, 50, 50, 50, 50, 50] := by decide

example : thresholds [] = List.replicate 9 0 := by decide

example : populate [(10, 0), (9999, 1)] = [10] := by decide

example : thresholds [10] = List.replicate 9 10 := by decide

example :
    thresholds
        [1, 1, 1, 1, 50, 50, 100, 100, 100, 100, 500, 500, 500,
          999, 999, 999, 999, 999, 999, 999] =
      [1, 2, 50, 100, 101, 500, 999, 999, 999] := by decide

lemma histMax_ge {s : List Nat} {x : Nat} (hx : x ∈ s) : x ≤ histMax s := by
  induction s with
  | nil => cases hx
  | cons a t ih =>
    rcases List.mem_cons.mp hx with rfl | hxt
    · exact le_max_left _ _
    · exact le_trans (ih hxt) (le_max_right _ _)

lemma histMax_mem {s : List Nat} (h : s ≠ []) : histMax s ∈ s := by
  induction s with
  | nil => exact absurd rfl h
  | cons a t ih =>
    rcases eq_or_ne t [] with rfl | ht
    · show max a (histMax []) ∈ [a]
      have h0 : histMax ([] : List Nat) = 0 := rfl
      rw [h0, Nat.max_zero]
      exact List.mem_cons_self a []
    · show max a (histMax t) ∈ a :: t
      rcases max_choice a (histMax t) with hm | hm <;> rw [hm]
      · exact List.mem_cons_self a t
      · exact List.mem_cons_of_mem a (ih ht)

lemma all_of_filter_length_eq {p : Nat → Bool} {l : List Nat}
    (h : (l.filter p).length = l.length) : ∀ a ∈ l, p a := by
  induction l with
  | nil => simp
  | cons a t ih =>
    by_cases hp : p a
    · intro x hx
      rcases List.mem_cons.mp hx with rfl | hxt
      · exact hp
      · refine ih ?_ x hxt
        simp only [List.filter_cons, hp, if_pos, List.length_cons] at h
        omega
    · exfalso
      simp [List.filter_cons, hp] at h
      have := List.length_filter_le p t
      omega

lemma valueAtQuantile_le (s : List Nat) (i : Nat) :
    valueAtQuantile s i ≤ histMax s := by
  unfold valueAtQuantile
  set c := s.filter (fun v => decide (quantileTarget s.length i ≤ countLE s v)) with hc
  rcases hm : c.min? with _ | v
  · exact Nat.zero_le _
  · have hv : v ∈ c := List.min?_mem (fun _ _ => min_choice _ _) hm
    exact histMax_ge (List.mem_of_mem_filter hv)

lemma countLE_histMax (s : List Nat) : countLE s (histMax s) = s.length := by
  unfold countLE
  rw [List.filter_eq_self.mpr]
  intro a ha
  exact decide_eq_true (histMax_ge ha)

lemma quantileTarget_eight {n : Nat} (h : 1 ≤ n) : quantileTarget n 8 = n := by
  unfold quantileTarget
  have h8 : (8 * n + 7) / 8 = n := by omega
  rw [h8]
  exact Nat.max_eq_right h

lemma valueAtQuantile_eight_ge {s : List Nat} (h : s ≠ []) :
    histMax s ≤ valueAtQuantile s 8 := by
  unfold valueAtQuantile
  have hn : 1 ≤ s.length := List.length_pos.mpr h
  set c := s.filter (fun v => decide (quantileTarget s.length 8 ≤ countLE s v)) with hc
  have hMc : histMax s ∈ c := by
    rw [hc]
    refine List.mem_filter.mpr ⟨histMax_mem h, ?_⟩
    rw [quantileTarget_eight hn, countLE_histMax]
    simp
  rcases hm : c.min? with _ | v
  · exact absurd (List.min?_eq_none_iff.mp hm ▸ hMc) (List.not_mem_nil _)
  · have hv : v ∈ c := List.min?_mem (fun _ _ => min_choice _ _) hm
    rw [hc] at hv
    have htgt : quantileTarget s.length 8 ≤ countLE s v :=
      of_decide_eq_true (List.mem_filter.mp hv).2
    rw [quantileTarget_eight hn] at htgt
    have hall : ∀ a ∈ s, a ≤ v := by
      have hlen : (s.filter (fun x => decide (x ≤ v))).length = s.length :=
        le_antisymm (List.length_filter_le _ _) htgt
      intro a ha
      exact of_decide_eq_true (all_of_filter_length_eq hlen a ha)
    exact hall _ (histMax_mem h)

lemma valueAtQuantile_eight {s : List Nat} (h : s ≠ []) :
    valueAtQuantile s 8 = histMax s :=
  le_antisymm (valueAtQuantile_le s 8) (valueAtQuantile_eight_ge h)

lemma chain_of_all_eq {l : List Nat} {a : Nat} (h : ∀ x ∈ l, x = a)
    {b : Nat} (hb : b ≤ a) : List.Chain (· ≤ ·) b l := by
  induction l generalizing b with
  | nil => exact List.Chain.nil
  | cons c t ih =>
    have hc : c = a := h c (by simp)
    exact List.Chain.cons (hc ▸ hb) (ih (fun x hx => h x (by simp [hx])) (le_of_eq hc))

lemma nudgeAux_chain (maxV : Nat) (l : List Nat) :
    ∀ (k prev : Nat), prev ≤ maxV → (∀ x ∈ l, x ≤ maxV) →
      (∀ x ∈ l.drop k, maxV ≤ x) →
      List.Chain (· ≤ ·) prev (nudgeAux maxV prev k l) := by
  induction l with
  | nil => intro k prev _ _ _; cases k <;> exact List.Chain.nil
  | cons t rest ih =>
    intro k prev hprev hle hge
    cases k with
    | zero =>
      show List.Chain (· ≤ ·) prev (t :: rest)
      refine chain_of_all_eq (a := maxV) ?_ hprev
      intro x hx
      exact le_antisymm (hle x hx) (hge x hx)
    | succ k =>
      show List.Chain (· ≤ ·) prev
        ((if max prev t = prev then min (nextNonEquivalent (max prev t)) maxV
          else max prev t) ::
          nudgeAux maxV _ k rest)
      set t2 := if max prev t = prev then min (nextNonEquivalent (max prev t)) maxV
        else max prev t with ht2
      have hprev2 : prev ≤ t2 := by
        rw [ht2]
        split
        · exact le_min (by simp [nextNonEquivalent]; omega) hprev
        · exact le_max_left _ _
      have ht2le : t2 ≤ maxV := by
        rw [ht2]
        split
        · exact min_le_right _ _
        · exact max_le hprev (hle t (by simp))
      refine List.Chain.cons hprev2 (ih k t2 ht2le ?_ ?_)
      · intro x hx; exact hle x (List.mem_cons_of_mem _ hx)
      · intro x hx; exact hge x (by simpa using hx)

lemma nudgeAux_length (maxV : Nat) (l : List Nat) :
    ∀ (k prev : Nat), (nudgeAux maxV prev k l).length = l.length := by
  induction l with
  | nil => intro k prev; cases k <;> rfl
  | cons t rest ih =>
    intro k prev
    cases k with
    | zero => rfl
    | succ k => simpa [nudgeAux] using ih k _

lemma thresholds_length (s : List Nat) : (thresholds s).length = 9 := by
  have hoct : (octiles s).length = 9 := by simp [octiles]
  rcases ho : octiles s with _ | ⟨t0, rest⟩
  · rw [ho] at hoct; cases hoct
  · rw [ho] at hoct
    simp only [thresholds, ho, nudge, List.length_cons, nudgeAux_length]
    simpa using hoct

lemma octiles_expand (s : List Nat) :
    octiles s =
      [valueAtQuantile s 0, valueAtQuantile s 1, valueAtQuantile s 2,
        valueAtQuantile s 3, valueAtQuantile s 4, valueAtQuantile s 5,
        valueAtQuantile s 6, valueAtQuantile s 7, valueAtQuantile s 8] := rfl

lemma thresholds_chain (s : List Nat) :
    List.Chain' (· ≤ ·) (thresholds s) := by
  rw [thresholds, octiles_expand, nudge]
  refine nudgeAux_chain (histMax s) _ 7 (valueAtQuantile s 0)
    (valueAtQuantile_le s 0) ?_ ?_
  · intro x hx
    simp only [List.mem_cons, List.not_mem_nil, or_false] at hx
    rcases hx with rfl | rfl | rfl | rfl | rfl | rfl | rfl | rfl <;>
      exact valueAtQuantile_le s _
  · intro x hx
    simp only [List.drop, List.mem_singleton] at hx
    subst hx
    rcases eq_or_ne s [] with rfl | hs
    · exact Nat.zero_le _
    · exact valueAtQuantile_eight_ge hs

lemma thresholds_getLast (s : List Nat) :
    (thresholds s).getLast? = some (valueAtQuantile s 8) := rfl

/-- C1 counterexample: on the recorded multiset `[1, 1, 50]` the octiles
are `[1,1,1,1,1,1,50,50,50]`; the code's nudge (the histogram's
`next_non_equivalent`, i.e. value + 1) produces `[1,2,3,4,5,6,50,50,50]`,
whereas the claimed rule (smallest recorded value strictly above the
duplicate) would produce `[1,50,50,50,50,50,50,50,50]`.  The value `2`
produced by the code is not a recorded value at all. -/
theorem C1_counterexample :
    thresholds [1, 1, 50] = [1, 2, 3, 4, 5, 6, 50, 50, 50] ∧
    claimThresholds [1, 1, 50] = [1, 50, 50, 50, 50, 50, 50, 50, 50] ∧
    thresholds [1, 1, 50] ≠ claimThresholds [1, 1, 50] ∧
    ¬ (2 ∈ [1, 1, 50]) := by decide

/-- C1 (amended): for every non-empty recorded multiset, the
quantile-plus-nudge computation yields a 9-element, non-decreasing
threshold sequence whose last entry is the maximum recorded value;
duplicates are resolved by the histogram's next-non-equivalent value
(the duplicate plus one at unit resolution) clamped to the maximum,
not by the smallest recorded value above the duplicate. -/
theorem C1_thresholds_nondecreasing (s : List Nat) (h : s ≠ []) :
    (thresholds s).length = 9 ∧
    List.Chain' (· ≤ ·) (thresholds s) ∧
    (thresholds s).getLast? = some (histMax s) := by
  refine ⟨thresholds_length s, thresholds_chain s, ?_⟩
  rw [thresholds_getLast, valueAtQuantile_eight h]

/-- C1 witness: the amended theorem instantiated at the multiset
`[3, 7, 7]`. -/
theorem C1_witness :
    ([3, 7, 7] : List Nat) ≠ [] ∧
    ((thresholds [3, 7, 7]).length = 9 ∧
      List.Chain' (· ≤ ·) (thresholds [3, 7, 7]) ∧
      (thresholds [3, 7, 7]).getLast? = some (histMax [3, 7, 7])) :=
  ⟨by decide, C1_thresholds_nondecreasing [3, 7, 7] (by decide)⟩

/-- C2: samples whose escape flag equals 1 (non-escape) are never
recorded, so appending any batch of non-escaped samples to the buffer
changes neither the recorded multiset nor any of the 9 thresholds. -/
theorem C2_nonescape_never_recorded (buf extra : List (Nat × Nat))
    (h : ∀ b ∈ extra, b.2 = 1) :
    populate (buf ++ extra) = populate buf ∧
    thresholds (populate (buf ++ extra)) = thresholds (populate buf) := by
  have hnil : extra.filter (fun b => decide (b.2 ≠ 1)) = [] := by
    rw [List.filter_eq_nil_iff]
    intro b hb
    simp [h b hb]
  have hpop : populate (buf ++ extra) = populate buf := by
    unfold populate
    rw [List.filter_append, hnil, List.append_nil]
  exact ⟨hpop, by rw [hpop]⟩

/-- C2 witness: the theorem at the two-sample input
`[(10, escaped), (9999, non-escaped)]` (escape flag 0 marks escape,
flag 1 marks non-escape); additionally all 9 thresholds there evaluate
to 10, i.e. they derive only from the escaped value 10. -/
theorem C2_witness :
    (∀ b ∈ [((9999 : Nat), (1 : Nat))], b.2 = 1) ∧
    (populate ([(10, 0)] ++ [(9999, 1)]) = populate [(10, 0)] ∧
      thresholds (populate ([(10, 0)] ++ [(9999, 1)])) =
        thresholds (populate [(10, 0)])) ∧
    populate [((10 : Nat), (0 : Nat))] = [10] ∧
    thresholds (populate [(10, 0)]) = List.replicate 9 10 :=
  ⟨by decide, C2_nonescape_never_recorded [(10, 0)] [(9999, 1)] (by decide),
    by decide, by decide⟩

/-- C3: on the empty escaped-sample set the computation is total and all
9 thresholds equal the histogram's empty sentinel 0 (the crate's
`value_at_quantile` and `max` both return 0 on an empty histogram). -/
theorem C3_empty_sentinel :
    thresholds (populate []) = List.replicate 9 0 ∧
    thresholds [] = List.replicate 9 0 ∧
    histMax [] = 0 := by decide

/-- C4: on the 20-sample multiset
`[1,1,1,1,50,50,100,100,100,100,500,500,500,999,999,999,999,999,999,999]`
the quantile-plus-nudge computation yields
`[1, 2, 50, 100, 101, 500, 999, 999, 999]`: 9 thresholds, `T[0] ≤ 1`,
`T[8] = 999` (the maximum), and every adjacent pair is strictly
increasing except where clamped at 999. -/
theorem C4_end_to_end :
    thresholds
        [1, 1, 1, 1, 50, 50, 100, 100, 100, 100, 500, 500, 500,
          999, 999, 999, 999, 999, 999, 999] =
      [1, 2, 50, 100, 101, 500, 999, 999, 999] ∧
    (thresholds
        [1, 1, 1, 1, 50, 50, 100, 100, 100, 100, 500, 500, 500,
          999, 999, 999, 999, 999, 999, 999]).length = 9 ∧
    (thresholds
        [1, 1, 1, 1, 50, 50, 100, 100, 100, 100, 500, 500, 500,
          999, 999, 999, 999, 999, 999, 999]).getD 0 0 ≤ 1 ∧
    (thresholds
        [1, 1, 1, 1, 50, 50, 100, 100, 100, 100, 500, 500, 500,
          999, 999, 999, 999, 999, 999, 999]).getD 8 0 = 999 ∧
    histMax
        [1, 1, 1, 1, 50, 50, 100, 100, 100, 100, 500, 500, 500,
          999, 999, 999, 999, 999, 999, 999] = 999 ∧
    (∀ i, i < 8 →
      (thresholds
          [1, 1, 1, 1, 50, 50, 100, 100, 100, 100, 500, 500, 500,
            999, 999, 999, 999, 999, 999, 999]).getD i 0 <
        (thresholds
            [1, 1, 1, 1, 50, 50, 100, 100, 100, 100, 500, 500, 500,
              999, 999, 999, 999, 999, 999, 999]).getD (i + 1) 0 ∨
      ((thresholds
            [1, 1, 1, 1, 50, 50, 100, 100, 100, 100, 500, 500, 500,
              999, 999, 999, 999, 999, 999, 999]).getD i 0 = 999 ∧
        (thresholds
            [1, 1, 1, 1, 50, 50, 100, 100, 100, 100, 500, 500, 500,
              999, 999, 999, 999, 999, 999, 999]).getD (i + 1) 0 = 999)) := by
  decide

/-- C5: `reset(true)` yields exactly the Mandelbrot window
`(-2, 1, -1, 1)` and `reset(false)` exactly the Julia window
`(-2, 2, -2, 2)`, whatever the prior state. -/
theorem C5_reset_canonical (p : DrawParams) :
    ((p.reset true).x_min = -2 ∧ (p.reset true).x_max = 1 ∧
      (p.reset true).y_min = -1 ∧ (p.reset true).y_max = 1) ∧
    ((p.reset false).x_min = -2 ∧ (p.reset false).x_max = 2 ∧
      (p.reset false).y_min = -2 ∧ (p.reset false).y_max = 2) :=
  ⟨⟨rfl, rfl, rfl, rfl⟩, ⟨rfl, rfl, rfl, rfl⟩⟩

/-- C6: `scroll(x, y)` shifts each x-bound by `x·(xMax−xMin)/10` and each
y-bound by `y·(yMax−yMin)/10` of the pre-call spans; `scroll(1, 0)`
shifts the x-bounds by exactly one tenth of the span and leaves the
y-bounds alone; `scroll(0, 0)` is the identity. -/
theorem C6_scroll_shift (p : DrawParams) (x y : ℚ) :
    ((p.scroll x y).x_min = p.x_min + x * ((p.x_max - p.x_min) / 10) ∧
      (p.scroll x y).x_max = p.x_max + x * ((p.x_max - p.x_min) / 10) ∧
      (p.scroll x y).y_min = p.y_min + y * ((p.y_max - p.y_min) / 10) ∧
      (p.scroll x y).y_max = p.y_max + y * ((p.y_max - p.y_min) / 10)) ∧
    ((p.scroll 1 0).x_min = p.x_min + (p.x_max - p.x_min) / 10 ∧
      (p.scroll 1 0).x_max = p.x_max + (p.x_max - p.x_min) / 10 ∧
      (p.scroll 1 0).y_min = p.y_min ∧
      (p.scroll 1 0).y_max = p.y_max) ∧
    p.scroll 0 0 = p := by
  refine ⟨⟨rfl, rfl, rfl, rfl⟩, ⟨?_, ?_, ?_, ?_⟩, ?_⟩
  · show p.x_min + 1 * ((p.x_max - p.x_min) / 10) = _; ring
  · show p.x_max + 1 * ((p.x_max - p.x_min) / 10) = _; ring
  · show p.y_min + 0 * ((p.y_max - p.y_min) / 10) = _; ring
  · show p.y_max + 0 * ((p.y_max - p.y_min) / 10) = _; ring
  · ext <;> simp [DrawParams.scroll]

/-- C7 counterexample: at the sample state (span 3) the zoomIn/zoomOut
round trip gives span `2.88 = 3·0.8·1.2`, not `3·0.8·1.16 = 2.784` as
the claim's factor 1.16 would demand; the correct second factor is 1.2. -/
theorem C7_counterexample :
    spanX sampleParams = 3 ∧
    spanX (sampleParams.zoom_in.zoom_out) = (12 / 10) * ((8 / 10) * 3) ∧
    spanX (sampleParams.zoom_in.zoom_out) ≠ (116 / 100) * ((8 / 10) * 3) := by
  refine ⟨by norm_num [spanX, sampleParams], ?_, ?_⟩ <;>
    norm_num [spanX, sampleParams, DrawParams.zoom_in, DrawParams.zoom_out]

/-- C7 (amended): zoomIn scales each span by 0.8 and a following zoomOut
scales the reduced span by 1.2 (both recompute sx, sy from the
pre-operation span), so the round trip multiplies each span by 0.96 and
never restores a non-degenerate span exactly. -/
theorem C7_zoom_roundtrip (p : DrawParams) (hx : 0 < spanX p) (hy : 0 < spanY p) :
    spanX p.zoom_in = (8 / 10) * spanX p ∧
    spanY p.zoom_in = (8 / 10) * spanY p ∧
    spanX p.zoom_in.zoom_out = (12 / 10) * ((8 / 10) * spanX p) ∧
    spanY p.zoom_in.zoom_out = (12 / 10) * ((8 / 10) * spanY p) ∧
    spanX p.zoom_in.zoom_out ≠ spanX p ∧
    spanY p.zoom_in.zoom_out ≠ spanY p := by
  have ex : spanX p.zoom_in.zoom_out = (12 / 10) * ((8 / 10) * spanX p) := by
    simp only [spanX, DrawParams.zoom_in, DrawParams.zoom_out]
    ring
  have ey : spanY p.zoom_in.zoom_out = (12 / 10) * ((8 / 10) * spanY p) := by
    simp only [spanY, DrawParams.zoom_in, DrawParams.zoom_out]
    ring
  refine ⟨by simp only [spanX, DrawParams.zoom_in]; ring,
    by simp only [spanY, DrawParams.zoom_in]; ring, ex, ey, ?_, ?_⟩
  · rw [ex]; intro hcontra; nlinarith
  · rw [ey]; intro hcontra; nlinarith

/-- C7 witness: the amended theorem instantiated at the sample state,
whose spans 3 and 2 are positive. -/
theorem C7_witness :
    (0 < spanX sampleParams ∧ 0 < spanY sampleParams) ∧
    spanX sampleParams.zoom_in.zoom_out ≠ spanX sampleParams :=
  ⟨⟨by norm_num [spanX, sampleParams], by norm_num [spanY, sampleParams]⟩,
    (C7_zoom_roundtrip sampleParams (by norm_num [spanX, sampleParams])
        (by norm_num [spanY, sampleParams])).2.2.2.2.1⟩

/-- C8 counterexample: switching the sample state (Mandelbrot mode,
snowflake function selected, iteration cap 500) to Julia mode resets the
bounds to the Julia window but leaves `max_iterations` at 500 — the
checkbox handler never touches the iteration cap, so it is not reset to
27 (the cap the claim demands for the snowflake function). -/
theorem C8_counterexample :
    (handleModeChange sampleParams false).f = "FSnowflakes" ∧
    (handleModeChange sampleParams false).max_iterations = 500 ∧
    (handleModeChange sampleParams false).max_iterations ≠ 27 ∧
    (handleModeChange sampleParams false).max_iterations ≠ 1024 := by
  refine ⟨rfl, rfl, by decide, by decide⟩

/-- C8 (amended): switching the mode to Julia mid-session resets the
bounds to the Julia canonical window `(-2, 2, -2, 2)` and leaves
`max_iterations` (and the function selector) unchanged; the iteration
cap is reset — to 27 for the snowflake function and 1024 otherwise —
only by the Julia-function combo handler when the selected function
changes. -/
theorem C8_mode_change (p : DrawParams) (variant : String) :
    ((handleModeChange p false).x_min = -2 ∧
      (handleModeChange p false).x_max = 2 ∧
      (handleModeChange p false).y_min = -2 ∧
      (handleModeChange p false).y_max = 2) ∧
    (handleModeChange p false).max_iterations = p.max_iterations ∧
    (handleModeChange p false).f = p.f ∧
    (handleFuncChange p variant).max_iterations =
      (if "F" ++ variant = "FSnowflakes" then 27 else 1024) :=
  ⟨⟨rfl, rfl, rfl, rfl⟩, rfl, rfl, rfl⟩

/-- C9: the bounds invariant `xMin < xMax ∧ yMin < yMax` holds after
construction (`new`) and is preserved by `reset`, `scroll`, `pan`,
`zoom_in` and `zoom_out`, over exact arithmetic. -/
theorem C9_bounds_invariant (p : DrawParams) (b : Bool) (x y : ℚ)
    (d : ℚ × ℚ) (args : MandelJuliaArgs) (h : boundsInv p) :
    boundsInv (DrawParams.new d args) ∧
    boundsInv (p.reset b) ∧
    boundsInv (p.scroll x y) ∧
    boundsInv (p.pan x y) ∧
    boundsInv p.zoom_in ∧
    boundsInv p.zoom_out := by
  obtain ⟨h1, h2⟩ := h
  refine ⟨?_, ?_, ?_, ?_, ?_, ?_⟩
  · cases hb : args.is_mandelbrot <;>
      norm_num [DrawParams.new, DrawParams.reset, boundsInv, hb]
  · cases b <;> norm_num [DrawParams.reset, boundsInv]
  · exact ⟨by simp [DrawParams.scroll]; linarith, by simp [DrawParams.scroll]; linarith⟩
  · exact ⟨by simp [DrawParams.pan, DrawParams.scroll]; linarith,
      by simp [DrawParams.pan, DrawParams.scroll]; linarith⟩
  · exact ⟨by simp [DrawParams.zoom_in]; linarith, by simp [DrawParams.zoom_in]; linarith⟩
  · exact ⟨by simp [DrawParams.zoom_out]; linarith, by simp [DrawParams.zoom_out]; linarith⟩

/-- C9 witness: the invariant theorem instantiated at the sample state,
which satisfies the invariant. -/
theorem C9_witness :
    boundsInv sampleParams ∧ boundsInv sampleParams.zoom_in :=
  ⟨by decide,
    (C9_bounds_invariant sampleParams true 1 2 (1024, 768)
        ⟨true, .snowflakes, .turbo⟩ (by decide)).2.2.2.2.1⟩

/-- C10: `scroll` and `pan` change only the four bounds: the pixel
dimensions, iteration cap, both threshold groups, the function and
color-scheme selectors and the mode flag are untouched, and both spans
are preserved exactly — the view is translated, never rescaled. -/
theorem C10_translation_frame (p : DrawParams) (x y : ℚ) :
    ((p.scroll x y).width = p.width ∧ (p.scroll x y).height = p.height ∧
      (p.scroll x y).max_iterations = p.max_iterations ∧
      (p.scroll x y).ranges = p.ranges ∧
      (p.scroll x y).ranges_2 = p.ranges_2 ∧
      (p.scroll x y).f = p.f ∧
      (p.scroll x y).color_map = p.color_map ∧
      (p.scroll x y).is_mandelbrot = p.is_mandelbrot ∧
      spanX (p.scroll x y) = spanX p ∧ spanY (p.scroll x y) = spanY p) ∧
    ((p.pan x y).width = p.width ∧ (p.pan x y).height = p.height ∧
      (p.pan x y).max_iterations = p.max_iterations ∧
      (p.pan x y).ranges = p.ranges ∧
      (p.pan x y).ranges_2 = p.ranges_2 ∧
      (p.pan x y).f = p.f ∧
      (p.pan x y).color_map = p.color_map ∧
      (p.pan x y).is_mandelbrot = p.is_mandelbrot ∧
      spanX (p.pan x y) = spanX p ∧ spanY (p.pan x y) = spanY p) := by
  refine ⟨⟨rfl, rfl, rfl, rfl, rfl, rfl, rfl, rfl, ?_, ?_⟩,
    ⟨rfl, rfl, rfl, rfl, rfl, rfl, rfl, rfl, ?_, ?_⟩⟩ <;>
    simp [spanX, spanY, DrawParams.scroll, DrawParams.pan]

end MandelJulia
